import Mathlib

/-!
Verification of the minimal-MEME motif reader (`Bio/motifs/minimal.py`).

The input handle is modelled as a `List String` of newline-stripped lines,
consumed left to right, mirroring the shared forward-only iterator of the
source.  Python string primitives (`split`, `strip`, `startswith`,
`replace`, `str.split(sep)`) are re-implemented on `List Char` so that all
definitions reduce in the kernel.  Python floats are modelled exactly as
rationals built with `mkRat`: on the decimal literals appearing in the
claims this coincides with IEEE semantics.  Python exceptions are modelled
by `Except` with a `PyError` distinguishing `ValueError` (message carried)
from `IndexError`.
-/

namespace MinimalMeme

/-- The six ASCII whitespace characters recognised by Python's `str.split()`
and `str.strip()`. -/
def isPySpace (c : Char) : Bool :=
  c = ' ' || c = '\t' || c = '\n' || c = '\r' || c = '\x0b' || c = '\x0c'

/-- Helper for `pySplit`: accumulates the current word (reversed) while
scanning the characters. -/
def pySplitAux : List Char → List Char → List (List Char)
  | [], acc => if acc.isEmpty then [] else [acc.reverse]
  | c :: cs, acc =>
    if isPySpace c then
      if acc.isEmpty then pySplitAux cs [] else acc.reverse :: pySplitAux cs []
    else pySplitAux cs (c :: acc)

/-- Python `s.split()` (no argument): split on runs of whitespace,
discarding empty tokens. -/
def pySplit (s : String) : List String :=
  (pySplitAux s.data []).map fun w => ⟨w⟩

/-- Python `s.strip()`: remove leading and trailing whitespace. -/
def pyStrip (s : String) : String :=
  ⟨((s.data.dropWhile isPySpace).reverse.dropWhile isPySpace).reverse⟩

/-- Python `s.startswith(pre)`. -/
def pyStartsWith (s t : String) : Bool :=
  List.isPrefixOf t.data s.data

/-- The characters after the first occurrence of `pat` in `s`, or `none` if
`pat` does not occur.  (`pat` is always a non-empty literal at call sites.) -/
def afterFirst (pat : List Char) : List Char → Option (List Char)
  | [] => none
  | c :: cs =>
    if List.isPrefixOf pat (c :: cs) then some ((c :: cs).drop pat.length)
    else afterFirst pat cs

/-- The characters of `s` before the first occurrence of `pat` (all of `s`
if `pat` does not occur). -/
def upToFirst (pat : List Char) : List Char → List Char
  | [] => []
  | c :: cs =>
    if List.isPrefixOf pat (c :: cs) then []
    else c :: upToFirst pat cs

/-- Helper for `pyReplace`: `skip` counts pattern characters still to be
dropped after a match (the non-overlapping left-to-right scan of Python's
`str.replace`). -/
def replaceAux (pat rep : List Char) : List Char → Nat → List Char
  | [], _ => []
  | _ :: cs, Nat.succ k => replaceAux pat rep cs k
  | c :: cs, 0 =>
    if !pat.isEmpty && List.isPrefixOf pat (c :: cs) then
      rep ++ replaceAux pat rep cs (pat.length - 1)
    else c :: replaceAux pat rep cs 0

/-- Python `s.replace(old, new)`: replace ALL occurrences, left to right,
non-overlapping.  (For empty `old` Python interleaves `new`; the source only
ever calls this with the non-empty literal `"ALPHABET= "`.) -/
def pyReplace (s old new : String) : String :=
  ⟨replaceAux old.data new.data s.data 0⟩

/-- Split a character list at every occurrence of the single character
`sep`, keeping empty pieces (Python `s.split(sep)` for a one-character
separator). -/
def splitOnChar (sep : Char) : List Char → List (List Char)
  | [] => [[]]
  | c :: cs =>
    if c = sep then [] :: splitOnChar sep cs
    else
      match splitOnChar sep cs with
      | [] => [[c]]
      | p :: ps => (c :: p) :: ps

/-- Numeric value of a digit string (caller guarantees all digits). -/
def digitsToNat (cs : List Char) : Nat :=
  cs.foldl (fun a c => a * 10 + (c.toNat - 48)) 0

/-- Non-empty and all decimal digits. -/
def isDigits (cs : List Char) : Bool :=
  !cs.isEmpty && cs.all Char.isDigit

/-- Strip one leading sign character; returns (is-negative, remainder). -/
def stripSignL : List Char → Bool × List Char
  | '-' :: cs => (true, cs)
  | '+' :: cs => (false, cs)
  | cs => (false, cs)

/-- Mantissa of a decimal literal: `digits`, `digits.digits`, `digits.` or
`.digits`; returns (numerator-digits value, denominator power of ten). -/
def parseMantissa (cs : List Char) : Option (Nat × Nat) :=
  match splitOnChar '.' cs with
  | [a] => if isDigits a then some (digitsToNat a, 1) else none
  | [a, b] =>
    if isDigits (a ++ b) then some (digitsToNat (a ++ b), 10 ^ b.length) else none
  | _ => none

/-- Python `float(s)` on finite decimal literals (optional sign, optional
fraction, optional `e`/`E` exponent), modelled exactly as a rational.
`inf`/`nan` and digit-group underscores are not modelled; the source never
feeds them to `float` in the claims under study. -/
def parseFloat (s : String) : Option ℚ :=
  let cs := (pyStrip s).data
  let sgn := stripSignL cs
  let lowered := sgn.2.map Char.toLower
  match splitOnChar 'e' lowered with
  | [m] =>
    match parseMantissa m with
    | some (n, d) => some (mkRat (if sgn.1 then -(n : ℤ) else (n : ℤ)) d)
    | none => none
  | [m, e] =>
    match parseMantissa m with
    | none => none
    | some (n, d) =>
      let esgn := stripSignL e
      if isDigits esgn.2 then
        let ev := digitsToNat esgn.2
        let n2 : ℤ := if sgn.1 then -(n : ℤ) else (n : ℤ)
        some (if esgn.1 then mkRat n2 (d * 10 ^ ev) else mkRat (n2 * 10 ^ ev) d)
      else none
  | _ => none

/-- Python `int(s)` (base 10): optional sign then digits. -/
def parseInt (s : String) : Option ℤ :=
  let cs := (pyStrip s).data
  let sgn := stripSignL cs
  if isDigits sgn.2 then
    some (if sgn.1 then -(digitsToNat sgn.2 : ℤ) else (digitsToNat sgn.2 : ℤ))
  else none

/-- Python `int(f * 1000000)` on the rational model of the float `f`:
multiply by 1,000,000 and truncate toward zero. -/
def truncMul1e6 (q : ℚ) : ℤ :=
  Int.tdiv (q.num * 1000000) (q.den : ℤ)

/-- The two Python exception classes the reader can raise. -/
inductive PyError where
  | valueError (msg : String)
  | indexError
deriving DecidableEq, Repr

/-- Modelled from the spec: the closed binary alphabet choice.  The real
`IUPAC.unambiguous_dna` / `IUPAC.protein` objects live in `Bio.Alphabet`,
outside the given source; only their identity matters to the reader. -/
inductive Alphabet where
  | unambiguous_dna
  | protein
deriving DecidableEq, Repr

/-- Modelled from the spec: the external `motifs.Motif` object, reduced to
the plain attribute record that `read` populates (name, alphabet, counts,
background, length, num_occurrences, evalue).  `counts` keeps the
association-list shape of the Python dict built by `__read_lpm`, so its key
set is observable. -/
structure Motif where
  name : String
  alphabet : Alphabet
  counts : List (String × List ℤ)
  background : List (String × ℚ)
  length : ℤ
  num_occurrences : ℤ
  evalue : ℚ
deriving DecidableEq, Repr

/-- The `Record` produced by `read`: the list of motifs plus the metadata
fields of `minimal.Record.__init__` (in the final, fully parsed state). -/
structure Record where
  version : String
  datafile : String
  command : String
  alphabet : Alphabet
  background : List (String × ℚ)
  sequences : List String
  motifs : List Motif
deriving DecidableEq, Repr

/-- Python `ls[i]` for a non-negative literal index: `IndexError` when out
of range. -/
def pyIndex {α : Type} (ls : List α) (i : Nat) : Except PyError α :=
  match ls.get? i with
  | none => Except.error PyError.indexError
  | some x => Except.ok x

/-- Python `float(tok)` raising `ValueError` on unparsable input. -/
def pyFloatE (tok : String) : Except PyError ℚ :=
  match parseFloat tok with
  | some q => Except.ok q
  | none => Except.error (PyError.valueError ("could not convert string to float: " ++ tok))

/-- Python `int(tok)` raising `ValueError` on unparsable input. -/
def pyIntE (tok : String) : Except PyError ℤ :=
  match parseInt tok with
  | some n => Except.ok n
  | none => Except.error (PyError.valueError ("invalid literal for int() with base 10: " ++ tok))

/-- The `for line in handle: if p(line): break` idiom: skip lines until one
satisfies `p`; returns the matched line and the lines after it (the matched
line is consumed from the iterator), or `none` on exhaustion. -/
def dropUntil (p : String → Bool) : List String → Option (String × List String)
  | [] => none
  | l :: ls => if p l then some (l, ls) else dropUntil p ls

/-- `__read_version`: scan for `"MEME version"`, take token index 2 of the
stripped, split line. -/
def readVersion (handle : List String) : Except PyError (String × List String) :=
  match dropUntil (fun l => pyStartsWith l "MEME version") handle with
  | none =>
    Except.error (PyError.valueError
      "Improper input file. File should contain a line starting MEME version.")
  | some (line, rest) =>
    match (pySplit (pyStrip line)).get? 2 with
    | none => Except.error PyError.indexError
    | some v => Except.ok (v, rest)

/-- `__read_alphabet`: scan for a line starting `"ALPHABET"`, require the
stricter `"ALPHABET= "` shape, strip, remove ALL occurrences of
`"ALPHABET= "`, and compare the remainder with `"ACGT"`. -/
def readAlphabet (handle : List String) : Except PyError (Alphabet × List String) :=
  match dropUntil (fun l => pyStartsWith l "ALPHABET") handle with
  | none =>
    Except.error (PyError.valueError
      "Unexpected end of stream: Expected to find line starting with 'ALPHABET'")
  | some (line, rest) =>
    if pyStartsWith line "ALPHABET= " then
      Except.ok
        ((if pyReplace (pyStrip line) "ALPHABET= " "" = "ACGT" then
            Alphabet.unambiguous_dna
          else Alphabet.protein), rest)
    else
      Except.error (PyError.valueError ("Line does not start with 'ALPHABET':\n" ++ line))

/-- `__read_background`: scan for the background marker, consume one more
line, strip and split it, and read tokens 1, 3, 5, 7 as the A, C, G, T
frequencies. -/
def readBackground (handle : List String) :
    Except PyError (List (String × ℚ) × List String) :=
  match dropUntil (fun l => pyStartsWith l "Background letter frequencies") handle with
  | none =>
    Except.error (PyError.valueError
      "Improper input file. File should contain a line starting background frequencies.")
  | some (_, rest) =>
    match rest with
    | [] =>
      Except.error (PyError.valueError
        "Unexpected end of stream: Expected to find line starting background frequencies.")
    | line :: rest2 => do
      let ls := pySplit (pyStrip line)
      let tA ← pyIndex ls 1
      let vA ← pyFloatE tA
      let tC ← pyIndex ls 3
      let vC ← pyFloatE tC
      let tG ← pyIndex ls 5
      let vG ← pyFloatE tG
      let tT ← pyIndex ls 7
      let vT ← pyFloatE tT
      return ([("A", vA), ("C", vC), ("G", vG), ("T", vT)], rest2)

/-- The scan loop of `__read_motif_statistics`.  The Python `for` loop has
NO `else` clause: on exhaustion the loop variable keeps the LAST consumed
line (or the `line` argument when the handle is already empty), and
extraction proceeds on that line. -/
def scanMatrixHeader : String → List String → String × List String
  | line, [] => (line, [])
  | _, l :: ls =>
    if pyStartsWith l "letter-probability matrix:" then (l, ls)
    else scanMatrixHeader l ls

/-- Python `line.split(marker)[1].split()[0]`: the first whitespace token
of the text between the first and second occurrence of `marker`;
`IndexError` when `marker` is absent or no token follows. -/
def extractTokenAfter (marker line : String) : Except PyError String :=
  match afterFirst marker.data line.data with
  | none => Except.error PyError.indexError
  | some seg =>
    match pySplit ⟨upToFirst marker.data seg⟩ with
    | [] => Except.error PyError.indexError
    | t :: _ => Except.ok t

/-- The field extraction of `__read_motif_statistics` from the matched (or
last) line, in source order: `nsites=` then `w=` then `E=`.  Returns
`(length, num_occurrences, evalue)` as the Python function does. -/
def statsOf (line : String) : Except PyError (ℤ × ℤ × ℚ) := do
  let tN ← extractTokenAfter "nsites=" line
  let nsites ← pyIntE tN
  let tW ← extractTokenAfter "w=" line
  let w ← pyIntE tW
  let tE ← extractTokenAfter "E=" line
  let ev ← pyFloatE tE
  return (w, nsites, ev)

/-- `__read_motif_statistics`: scan forward for the matrix-header marker
(falling through to the last line on exhaustion), then extract the three
fields. -/
def readMotifStatistics (line : String) (handle : List String) :
    Except PyError ((ℤ × ℤ × ℚ) × List String) :=
  match scanMatrixHeader line handle with
  | (m, rest) =>
    match statsOf m with
    | Except.error e => Except.error e
    | Except.ok v => Except.ok (v, rest)

/-- `__read_lpm`: consume lines that split into exactly 4 tokens, turning
each token into `int(float(tok) * 1000000)`; stop at (and CONSUME) the
first other line, or at end of input.  Returns the four per-symbol columns
and the remaining handle. -/
def readLpm : List String → Except PyError ((List ℤ × List ℤ × List ℤ × List ℤ) × List String)
  | [] => Except.ok (([], [], [], []), [])
  | l :: ls =>
    let freqs := pySplit l
    if freqs.length = 4 then do
      let q0 ← pyFloatE (freqs.getD 0 "")
      let q1 ← pyFloatE (freqs.getD 1 "")
      let q2 ← pyFloatE (freqs.getD 2 "")
      let q3 ← pyFloatE (freqs.getD 3 "")
      let (cols, rem) ← readLpm ls
      return ((truncMul1e6 q0 :: cols.1, truncMul1e6 q1 :: cols.2.1,
               truncMul1e6 q2 :: cols.2.2.1, truncMul1e6 q3 :: cols.2.2.2), rem)
    else Except.ok (([], [], [], []), ls)

/-- The dict `{'A': counts[0], 'C': counts[1], 'G': counts[2], 'T': counts[3]}`
built at the end of `__read_lpm` — unconditionally keyed A, C, G, T. -/
def countsDict (c : List ℤ × List ℤ × List ℤ × List ℤ) : List (String × List ℤ) :=
  [("A", c.1), ("C", c.2.1), ("G", c.2.2.1), ("T", c.2.2.2)]

/-- The motif-block loop of `read`, with an explicit fuel argument for
structural recursion.  `read` passes the handle length as fuel; each
iteration consumes at least the matched MOTIF line, so the fuel-exhausted
branch is unreachable (see `loopMotifsF_fuel_irrelevant`). -/
def loopMotifsF (al : Alphabet) (bg : List (String × ℚ)) :
    Nat → List String → Except PyError (List Motif)
  | fuel, handle =>
    match dropUntil (fun l => pyStartsWith l "MOTIF") handle with
    | none => Except.ok []
    | some (line, rest1) =>
      match fuel with
      | 0 => Except.error (PyError.valueError "internal: fuel exhausted")
      | Nat.succ f =>
        match (pySplit line).get? 1 with
        | none => Except.error PyError.indexError
        | some name =>
          match readMotifStatistics line rest1 with
          | Except.error e => Except.error e
          | Except.ok (stats, rest2) =>
            match readLpm rest2 with
            | Except.error e => Except.error e
            | Except.ok (cols, rest3) =>
              match loopMotifsF al bg f rest3 with
              | Except.error e => Except.error e
              | Except.ok ms =>
                Except.ok
                  ({ name := name, alphabet := al, counts := countsDict cols,
                     background := bg, length := stats.1,
                     num_occurrences := stats.2.1, evalue := stats.2.2 } :: ms)

/-- `minimal.read`: header scan (version, alphabet, background) followed by
the motif-block loop. -/
def read (handle : List String) : Except PyError Record := do
  let (version, r1) ← readVersion handle
  let (al, r2) ← readAlphabet r1
  let (bg, r3) ← readBackground r2
  let ms ← loopMotifsF al bg r3.length r3
  return { version := version, datafile := "", command := "", alphabet := al,
           background := bg, sequences := [], motifs := ms }

/-- The string branch of `Record.__getitem__`: first motif whose name
equals the key, `None` (absence) otherwise. -/
def Record.findByName (r : Record) (key : String) : Option Motif :=
  r.motifs.find? (fun m => m.name = key)

/-- Modelled from the spec: Python `list.__getitem__` sequence indexing —
negative indices count from the end, out-of-range raises `IndexError` —
to which the integer branch of `Record.__getitem__` delegates. -/
def listGetItem (xs : List Motif) (i : ℤ) : Except PyError Motif :=
  let j : ℤ := if i < 0 then i + xs.length else i
  if 0 ≤ j then
    match xs.get? j.toNat with
    | some m => Except.ok m
    | none => Except.error PyError.indexError
  else Except.error PyError.indexError

/-- `Record.__getitem__`: textual keys search by name (absence is `none`,
not an error); integer keys use list indexing. -/
def Record.getitem (r : Record) : String ⊕ ℤ → Except PyError (Option Motif)
  | Sum.inl s => Except.ok (r.findByName s)
  | Sum.inr i => (listGetItem r.motifs i).map some

/-! ### Well-formed motif blocks, concrete inputs and observers used by the
claim statements -/

/-- The line shape of one motif block of the minimal-MEME grammar: the
`MOTIF` line, the `letter-probability matrix:` line, the matrix rows, and a
terminating separator line (blank in the concrete format). -/
structure BlockShape where
  motifLine : String
  statsLine : String
  rows : List String
deriving DecidableEq, Repr

/-- The input lines of one block: `MOTIF` line, matrix-header line, rows,
blank separator. -/
def blockLines (b : BlockShape) : List String :=
  b.motifLine :: b.statsLine :: (b.rows ++ [""])

/-- The concatenated input lines of a sequence of blocks. -/
def blocksJoin (blocks : List BlockShape) : List String :=
  (blocks.map blockLines).flatten

/-- A parseable matrix row: exactly 4 whitespace tokens, each a float
literal. -/
def rowOkB (r : String) : Bool :=
  (pySplit r).length == 4 &&
  (parseFloat ((pySplit r).getD 0 "")).isSome &&
  (parseFloat ((pySplit r).getD 1 "")).isSome &&
  (parseFloat ((pySplit r).getD 2 "")).isSome &&
  (parseFloat ((pySplit r).getD 3 "")).isSome

/-- Success test for `Except`. -/
def isOkE {α : Type} : Except PyError α → Bool
  | Except.ok _ => true
  | Except.error _ => false

/-- A well-formed motif block: the `MOTIF` line carries a name token, the
stats line is the matrix header and its three fields extract, and every row
parses. -/
def goodBlockB (b : BlockShape) : Bool :=
  pyStartsWith b.motifLine "MOTIF" &&
  ((pySplit b.motifLine).get? 1).isSome &&
  pyStartsWith b.statsLine "letter-probability matrix:" &&
  isOkE (statsOf b.statsLine) &&
  b.rows.all rowOkB

/-- The `(length, num_occurrences, evalue)` triple of a stats line
(defaulting to zeros when extraction fails; only used under
`goodBlockB`). -/
def statsGet (line : String) : ℤ × ℤ × ℚ :=
  match statsOf line with
  | Except.ok v => v
  | Except.error _ => (0, 0, mkRat 0 1)

/-- The rational value of a float token (defaulting to 0; only used where
parsing is known to succeed). -/
def qOf (s : String) : ℚ := (parseFloat s).getD (mkRat 0 1)

/-- The integer pseudo-count contributed by token `i` of a matrix row. -/
def tokVal (r : String) (i : Nat) : ℤ := truncMul1e6 (qOf ((pySplit r).getD i ""))

/-- Column `i` of the counts accumulated from a list of matrix rows. -/
def colVals (i : Nat) (rows : List String) : List ℤ :=
  rows.map fun r => tokVal r i

/-- The `Motif` that `read` builds from one well-formed block. -/
def blockMotif (al : Alphabet) (bg : List (String × ℚ)) (b : BlockShape) : Motif :=
  { name := (pySplit b.motifLine).getD 1 "",
    alphabet := al,
    counts := countsDict (colVals 0 b.rows, colVals 1 b.rows, colVals 2 b.rows, colVals 3 b.rows),
    background := bg,
    length := (statsGet b.statsLine).1,
    num_occurrences := (statsGet b.statsLine).2.1,
    evalue := (statsGet b.statsLine).2.2 }

/-- A minimal well-formed header: version, nucleotide alphabet, background
marker, background data line. -/
def header4 : List String :=
  ["MEME version 4", "ALPHABET= ACGT", "Background letter frequencies",
   "A 0.25 C 0.25 G 0.25 T 0.25"]

/-- The background mapping parsed from `header4`. -/
def bg4 : List (String × ℚ) :=
  [("A", qOf "0.25"), ("C", qOf "0.25"), ("G", qOf "0.25"), ("T", qOf "0.25")]

/-- The record produced by parsing `header4` followed by motif blocks. -/
def mkRec (ms : List Motif) : Record :=
  { version := "4", datafile := "", command := "", alphabet := Alphabet.unambiguous_dna,
    background := bg4, sequences := [], motifs := ms }

/-- Input whose motif block has no `letter-probability matrix:` line before
the input ends. -/
def inputNoMatrixHeader : List String := header4 ++ ["MOTIF LEXA"]

/-- Two well-formed motif blocks with the second `MOTIF` line immediately
following the first matrix, no separator line between them. -/
def inputAdjacentMotifs : List String := header4 ++
  ["MOTIF m1 x", "letter-probability matrix: alength= 4 w= 1 nsites= 2 E= 0.5",
   "0.25 0.25 0.25 0.25",
   "MOTIF m2 y", "letter-probability matrix: alength= 4 w= 1 nsites= 2 E= 0.5",
   "0.25 0.25 0.25 0.25"]

/-- A nucleotide input whose matrix header declares `w= 5` but only two
matrix rows follow. -/
def inputLengthMismatch : List String := header4 ++
  ["MOTIF m x", "letter-probability matrix: alength= 4 w= 5 nsites= 2 E= 0.5",
   "0.25 0.25 0.25 0.25", "0.25 0.25 0.25 0.25"]

/-- Input whose alphabet line contains the substring `"ALPHABET= "` twice. -/
def inputNestedAlphabet : List String :=
  ["MEME version 4", "ALPHABET= ALPHABET= ACGT", "Background letter frequencies",
   "A 0.25 C 0.25 G 0.25 T 0.25"]

/-- A protein-alphabet input with one well-formed motif block. -/
def inputProtein : List String :=
  ["MEME version 4", "ALPHABET= ACDEFGHIKLMNPQRSTVWY", "Background letter frequencies",
   "A 0.25 C 0.25 G 0.25 T 0.25",
   "MOTIF pm x", "letter-probability matrix: alength= 4 w= 1 nsites= 2 E= 0.5",
   "0.25 0.25 0.25 0.25", ""]

/-- The claim's reading of the alphabet decision, for comparison with the
source: strip the literal `"ALPHABET= "` PREFIX from the whitespace-trimmed
line and compare the remainder with `"ACGT"`.  The source instead removes
ALL occurrences of the substring. -/
def specAlphabetOf (line : String) : Alphabet :=
  if (⟨(pyStrip line).data.drop ("ALPHABET= ".data.length)⟩ : String) = "ACGT" then
    Alphabet.unambiguous_dna
  else Alphabet.protein

/-- A concrete well-formed block (one matrix row, `w= 1`). -/
def blockA : BlockShape :=
  { motifLine := "MOTIF m1 x",
    statsLine := "letter-probability matrix: alength= 4 w= 1 nsites= 2 E= 0.5",
    rows := ["0.25 0.25 0.25 0.25"] }

/-- Another concrete well-formed block (one matrix row, `w= 1`). -/
def blockB : BlockShape :=
  { motifLine := "MOTIF m2 y",
    statsLine := "letter-probability matrix: alength= 4 w= 1 nsites= 2 E= 0.5",
    rows := ["0.5 0.25 0.25 0.0"] }

/-- An empty counts dict, for concrete lookup examples. -/
def emptyCounts : List (String × List ℤ) := countsDict ([], [], [], [])

/-- A concrete motif named LEXA. -/
def motifLEXA : Motif :=
  { name := "LEXA", alphabet := Alphabet.unambiguous_dna, counts := emptyCounts,
    background := [], length := 0, num_occurrences := 0, evalue := mkRat 0 1 }

/-- A concrete motif named CRP. -/
def motifCRP : Motif :=
  { name := "CRP", alphabet := Alphabet.unambiguous_dna, counts := emptyCounts,
    background := [], length := 0, num_occurrences := 0, evalue := mkRat 0 1 }

/-- A concrete record holding the two motifs above, for lookup examples. -/
def recTwo : Record :=
  { version := "", datafile := "", command := "", alphabet := Alphabet.unambiguous_dna,
    background := [], sequences := [], motifs := [motifLEXA, motifCRP] }

/-! ### Helper lemmas -/

theorem dropUntil_eq_none (p : String → Bool) (ls : List String)
    (h : ∀ l ∈ ls, p l = false) : dropUntil p ls = none := by
  induction ls with
  | nil => rfl
  | cons x xs ih =>
    have hx := h x (List.mem_cons_self x xs)
    rw [dropUntil, if_neg (by simp [hx])]
    exact ih fun l hl => h l (List.mem_cons_of_mem _ hl)

theorem dropUntil_append (p : String → Bool) (pre : List String) (x : String)
    (post : List String) (h : ∀ l ∈ pre, p l = false) (hx : p x = true) :
    dropUntil p (pre ++ x :: post) = some (x, post) := by
  induction pre with
  | nil => simp [dropUntil, hx]
  | cons y ys ih =>
    have hy := h y (List.mem_cons_self y ys)
    rw [List.cons_append, dropUntil, if_neg (by simp [hy])]
    exact ih fun l hl => h l (List.mem_cons_of_mem _ hl)

theorem pyFloatE_eq_ok (s : String) (h : (parseFloat s).isSome = true) :
    pyFloatE s = Except.ok (qOf s) := by
  cases hp : parseFloat s with
  | none => simp [hp] at h
  | some q => simp [pyFloatE, qOf, hp]

/-- Evaluation of the matrix sub-scan on rows followed by a terminator:
every parseable 4-token row is consumed into the four columns, and the
terminating line `t` is consumed as well, leaving exactly `rest`. -/
theorem readLpm_eval (rows : List String) (t : String) (rest : List String)
    (hrows : ∀ r ∈ rows, rowOkB r = true) (ht : (pySplit t).length ≠ 4) :
    readLpm (rows ++ t :: rest) =
      Except.ok ((colVals 0 rows, colVals 1 rows, colVals 2 rows, colVals 3 rows), rest) := by
  induction rows with
  | nil =>
    rw [List.nil_append, readLpm, if_neg ht]
    rfl
  | cons r rows ih =>
    have hr := hrows r (List.mem_cons_self r rows)
    rw [rowOkB] at hr
    simp only [Bool.and_eq_true, beq_iff_eq] at hr
    obtain ⟨⟨⟨⟨hlen, h0⟩, h1⟩, h2⟩, h3⟩ := hr
    have ihh := ih fun x hx => hrows x (List.mem_cons_of_mem _ hx)
    rw [List.cons_append, readLpm, if_pos hlen]
    rw [pyFloatE_eq_ok _ h0, pyFloatE_eq_ok _ h1, pyFloatE_eq_ok _ h2, pyFloatE_eq_ok _ h3]
    simp [ihh, Except.instMonad, Except.bind, Except.pure, colVals, tokVal]

theorem dropUntil_cons_pos (p : String → Bool) (l : String) (ls : List String)
    (h : p l = true) : dropUntil p (l :: ls) = some (l, ls) := by
  rw [dropUntil, if_pos h]

theorem scanMatrixHeader_cons (line l : String) (ls : List String)
    (h : pyStartsWith l "letter-probability matrix:" = true) :
    scanMatrixHeader line (l :: ls) = (l, ls) := by
  rw [scanMatrixHeader, if_pos h]

theorem readMotifStatistics_cons (line s : String) (rest : List String)
    (hs : pyStartsWith s "letter-probability matrix:" = true)
    (v : ℤ × ℤ × ℚ) (hv : statsOf s = Except.ok v) :
    readMotifStatistics line (s :: rest) = Except.ok (v, rest) := by
  rw [readMotifStatistics, scanMatrixHeader_cons line s rest hs]
  dsimp only
  rw [hv]

/-- If no line of the handle starts with `MOTIF`, the motif-block loop ends
immediately with an empty motif list, at any fuel. -/
theorem loopMotifsF_no_motif (al : Alphabet) (bg : List (String × ℚ)) (fuel : Nat)
    (tail : List String) (h : ∀ l ∈ tail, pyStartsWith l "MOTIF" = false) :
    loopMotifsF al bg fuel tail = Except.ok [] := by
  rw [loopMotifsF, dropUntil_eq_none _ tail h]

/-- Evaluation of the motif-block loop on a concatenation of well-formed
blocks: one motif per block, in order, provided the fuel covers the input
length. -/
theorem loopMotifsF_blocks (al : Alphabet) (bg : List (String × ℚ))
    (blocks : List BlockShape) (hg : ∀ b ∈ blocks, goodBlockB b = true)
    (fuel : Nat) (hf : (blocksJoin blocks).length ≤ fuel) :
    loopMotifsF al bg fuel (blocksJoin blocks) =
      Except.ok (blocks.map (blockMotif al bg)) := by
  induction blocks generalizing fuel with
  | nil => exact loopMotifsF_no_motif al bg fuel [] (by simp [blocksJoin])
  | cons b blocks ih =>
    have hb := hg b (List.mem_cons_self b blocks)
    rw [goodBlockB] at hb
    simp only [Bool.and_eq_true] at hb
    obtain ⟨⟨⟨⟨hml, hnm⟩, hsl⟩, hst⟩, hrows⟩ := hb
    obtain ⟨nm, hnm⟩ := Option.isSome_iff_exists.mp hnm
    have hstv : ∃ v, statsOf b.statsLine = Except.ok v := by
      cases hv : statsOf b.statsLine with
      | ok v => exact ⟨v, rfl⟩
      | error e => rw [hv] at hst; simp [isOkE] at hst
    obtain ⟨v, hv⟩ := hstv
    have hrows' : ∀ r ∈ b.rows, rowOkB r = true := by
      intro r hr
      exact List.all_eq_true.mp hrows r hr
    have hjoin : blocksJoin (b :: blocks) =
        b.motifLine :: b.statsLine :: (b.rows ++ "" :: blocksJoin blocks) := by
      simp [blocksJoin, blockLines]
    rw [hjoin] at hf ⊢
    cases fuel with
    | zero => simp at hf
    | succ f =>
      have hf2 : (blocksJoin blocks).length ≤ f := by
        simp at hf
        omega
      rw [loopMotifsF,
        dropUntil_cons_pos (fun l => pyStartsWith l "MOTIF") b.motifLine _ hml]
      dsimp only
      rw [hnm]
      dsimp only
      rw [readMotifStatistics_cons _ _ _ hsl v hv]
      dsimp only
      rw [readLpm_eval b.rows "" (blocksJoin blocks) hrows' (by decide)]
      dsimp only
      rw [ih (fun x hx => hg x (List.mem_cons_of_mem _ hx)) f hf2]
      simp [blockMotif, statsGet, hv, countsDict, ← List.get?_eq_getElem?, hnm]

/-- Parsing the concrete header `header4` succeeds and hands the rest of
the input to the motif-block loop (version "4", DNA alphabet, uniform
background). -/
theorem read_header4 (tail : List String) :
    read (header4 ++ tail) =
      (loopMotifsF Alphabet.unambiguous_dna bg4 tail.length tail).map mkRec := by
  have h : read (header4 ++ tail) =
      Except.bind (loopMotifsF Alphabet.unambiguous_dna bg4 tail.length tail)
        (fun ms => Except.ok (mkRec ms)) := rfl
  rw [h]
  cases loopMotifsF Alphabet.unambiguous_dna bg4 tail.length tail <;> rfl

theorem dropUntil_rest_lt (p : String → Bool) (handle : List String)
    (l : String) (rest : List String) (h : dropUntil p handle = some (l, rest)) :
    rest.length < handle.length := by
  induction handle generalizing l rest with
  | nil => simp [dropUntil] at h
  | cons x xs ih =>
    rw [dropUntil] at h
    by_cases hx : p x = true
    · rw [if_pos hx] at h
      cases h
      simp
    · rw [if_neg hx] at h
      have := ih l rest h
      simp
      omega

theorem scanMatrixHeader_rest_le (line : String) (handle : List String) :
    (scanMatrixHeader line handle).2.length ≤ handle.length := by
  induction handle generalizing line with
  | nil => simp [scanMatrixHeader]
  | cons x xs ih =>
    rw [scanMatrixHeader]
    by_cases hx : pyStartsWith x "letter-probability matrix:" = true
    · rw [if_pos hx]
      simp
    · rw [if_neg hx]
      have := ih x
      simp
      omega

theorem readMotifStatistics_rest_le (line : String) (handle : List String)
    (v : (ℤ × ℤ × ℚ)) (rest : List String)
    (h : readMotifStatistics line handle = Except.ok (v, rest)) :
    rest.length ≤ handle.length := by
  rw [readMotifStatistics] at h
  have hle := scanMatrixHeader_rest_le line handle
  rcases hsc : scanMatrixHeader line handle with ⟨m, r⟩
  rw [hsc] at h hle
  dsimp only at h hle
  cases hst : statsOf m with
  | error e => rw [hst] at h; exact absurd h (by simp)
  | ok w =>
    rw [hst] at h
    cases h
    exact hle

theorem readLpm_rest_le (handle : List String) (cols : List ℤ × List ℤ × List ℤ × List ℤ)
    (rest : List String) (h : readLpm handle = Except.ok (cols, rest)) :
    rest.length ≤ handle.length := by
  induction handle generalizing cols rest with
  | nil =>
    rw [readLpm] at h
    cases h
    simp
  | cons x xs ih =>
    rw [readLpm] at h
    by_cases hx : (pySplit x).length = 4
    · rw [if_pos hx] at h
      cases h0 : pyFloatE ((pySplit x).getD 0 "") with
      | error e => rw [h0] at h; exact absurd h (by simp [Except.instMonad, Except.bind])
      | ok q0 =>
      cases h1 : pyFloatE ((pySplit x).getD 1 "") with
      | error e =>
        rw [h0, h1] at h
        exact absurd h (by simp [Except.instMonad, Except.bind])
      | ok q1 =>
      cases h2 : pyFloatE ((pySplit x).getD 2 "") with
      | error e =>
        rw [h0, h1, h2] at h
        exact absurd h (by simp [Except.instMonad, Except.bind])
      | ok q2 =>
      cases h3 : pyFloatE ((pySplit x).getD 3 "") with
      | error e =>
        rw [h0, h1, h2, h3] at h
        exact absurd h (by simp [Except.instMonad, Except.bind])
      | ok q3 =>
      cases hr : readLpm xs with
      | error e =>
        rw [h0, h1, h2, h3, hr] at h
        exact absurd h (by simp [Except.instMonad, Except.bind])
      | ok pr =>
        rw [h0, h1, h2, h3, hr] at h
        simp [Except.instMonad, Except.bind, Except.pure] at h
        have := ih pr.1 pr.2 (by rw [hr])
        rw [← h.2]
        simp
        omega
    · rw [if_neg hx] at h
      cases h
      simp

/-- The fuel-exhausted branch of `loopMotifsF` is unreachable: any fuel at
least the handle length gives the same result, so `read`'s choice of the
handle length as fuel is faithful to the unbounded Python loop. -/
theorem loopMotifsF_fuel_irrelevant (al : Alphabet) (bg : List (String × ℚ))
    (fuel₁ fuel₂ : Nat) (handle : List String)
    (h1 : handle.length ≤ fuel₁) (h2 : handle.length ≤ fuel₂) :
    loopMotifsF al bg fuel₁ handle = loopMotifsF al bg fuel₂ handle := by
  induction fuel₁ generalizing fuel₂ handle with
  | zero =>
    have hh : handle = [] := by
      cases handle with
      | nil => rfl
      | cons x xs => simp at h1
    subst hh
    rw [loopMotifsF, loopMotifsF]
    rfl
  | succ f ih =>
    rw [loopMotifsF]
    conv_rhs => rw [loopMotifsF]
    cases hd : dropUntil (fun l => pyStartsWith l "MOTIF") handle with
    | none => rfl
    | some p =>
      rcases p with ⟨line, rest1⟩
      have hlt1 := dropUntil_rest_lt _ _ _ _ hd
      cases fuel₂ with
      | zero => omega
      | succ g =>
        dsimp only
        cases hn : (pySplit line).get? 1 with
        | none => rfl
        | some name =>
          dsimp only
          cases hs : readMotifStatistics line rest1 with
          | error e => rfl
          | ok pr =>
            rcases pr with ⟨stats, rest2⟩
            have hle2 := readMotifStatistics_rest_le _ _ _ _ hs
            dsimp only
            cases hl : readLpm rest2 with
            | error e => rfl
            | ok pc =>
              rcases pc with ⟨cols, rest3⟩
              have hle3 := readLpm_rest_le _ _ _ hl
              dsimp only
              rw [ih g rest3 (by omega) (by omega)]

/-! ### Claim theorems -/

/-- C1: on an input whose MOTIF line is followed by no
`letter-probability matrix:` line, `read` does NOT fail with the
documented `ValueError`; the scan loop of `__read_motif_statistics` has no
`else` clause, so extraction is attempted on the last line and raises
`IndexError` from `line.split("nsites=")[1]`. -/
theorem read_missing_matrix_header_is_index_error :
    read inputNoMatrixHeader = Except.error PyError.indexError := rfl

/-- C2 (counterexample): the line terminating a matrix IS consumed by the
sub-scan: `readLpm`'s remaining handle after a row and a `MOTIF m2 y`
terminator is empty, and on a full input whose second MOTIF line
immediately follows the first matrix `read` returns only 1 motif. -/
theorem readLpm_consumes_terminator_cex :
    (read inputAdjacentMotifs).map (fun r => r.motifs.length) = Except.ok 1 ∧
    (readLpm ["0.25 0.25 0.25 0.25", "MOTIF m2 y"]).map (fun p => p.2) =
      Except.ok [] := ⟨rfl, rfl⟩

/-- C2 (amended): the matrix sub-scan stops at the first subsequent line
whose whitespace-split token count is not exactly 4, but that terminating
line is CONSUMED from the shared iterator: the remaining handle is exactly
the lines after it, so a MOTIF marker line immediately following a matrix
is lost to the next iteration of the motif-block loop. -/
theorem readLpm_consumes_terminating_line (rows : List String) (t : String)
    (rest : List String) (hrows : ∀ r ∈ rows, rowOkB r = true)
    (ht : (pySplit t).length ≠ 4) :
    (readLpm (rows ++ t :: rest)).map (fun p => p.2) = Except.ok rest := by
  rw [readLpm_eval rows t rest hrows ht]
  rfl

/-- Witness for `readLpm_consumes_terminating_line` at a concrete row,
terminator and tail. -/
theorem readLpm_consumes_terminating_line_witness :
    (∀ r ∈ ["0.25 0.25 0.25 0.25"], rowOkB r = true) ∧
    (pySplit "MOTIF m2 y").length ≠ 4 ∧
    (readLpm (["0.25 0.25 0.25 0.25"] ++ "MOTIF m2 y" :: ["next"])).map
      (fun p => p.2) = Except.ok ["next"] :=
  ⟨by decide, by decide,
    readLpm_consumes_terminating_line ["0.25 0.25 0.25 0.25"] "MOTIF m2 y" ["next"]
      (by decide) (by decide)⟩

/-- C3: for every input made of a well-formed header followed by exactly K
well-formed MOTIF blocks, `read` succeeds and the record length equals
K. -/
theorem read_block_count (blocks : List BlockShape)
    (hg : ∀ b ∈ blocks, goodBlockB b = true) :
    (read (header4 ++ blocksJoin blocks)).map (fun r => r.motifs.length) =
      Except.ok blocks.length := by
  rw [read_header4, loopMotifsF_blocks _ _ blocks hg _ (le_refl _)]
  simp [Except.map, mkRec]

/-- Witness for `read_block_count` with K = 2 concrete blocks. -/
theorem read_block_count_witness :
    (∀ b ∈ [blockA, blockB], goodBlockB b = true) ∧
    (read (header4 ++ blocksJoin [blockA, blockB])).map
      (fun r => r.motifs.length) = Except.ok 2 :=
  ⟨by decide, read_block_count [blockA, blockB] (by decide)⟩

/-- C4 (counterexample): completely empty input does NOT yield a length-0
record; it fails in the version scan with the missing-version error. -/
theorem read_empty_input_cex :
    read [] = Except.error (PyError.valueError
      "Improper input file. File should contain a line starting MEME version.") := rfl

/-- C4 (amended): input that ends right after the background line with
zero MOTIF markers yields a Record of length 0, not an error — exhaustion
while scanning for a MOTIF marker ends the loop successfully; completely
EMPTY input instead fails with the missing-version error, since the header
scan precedes the motif loop. -/
theorem read_no_motif_yields_empty (tail : List String)
    (h : ∀ l ∈ tail, pyStartsWith l "MOTIF" = false) :
    (read (header4 ++ tail)).map (fun r => r.motifs.length) = Except.ok 0 ∧
    read [] = Except.error (PyError.valueError
      "Improper input file. File should contain a line starting MEME version.") := by
  refine ⟨?_, rfl⟩
  rw [read_header4, loopMotifsF_no_motif _ _ _ _ h]
  rfl

/-- Witness for `read_no_motif_yields_empty` with a motif-free tail. -/
theorem read_no_motif_yields_empty_witness :
    (∀ l ∈ ["", "no marker here"], pyStartsWith l "MOTIF" = false) ∧
    ((read (header4 ++ ["", "no marker here"])).map
        (fun r => r.motifs.length) = Except.ok 0 ∧
      read [] = Except.error (PyError.valueError
        "Improper input file. File should contain a line starting MEME version.")) :=
  ⟨by decide, read_no_motif_yields_empty ["", "no marker here"] (by decide)⟩

/-- C5 (counterexample): a successfully parsed nucleotide input whose
matrix header declares `w= 5` but provides only two rows yields a motif
with `length = 5` while all four count sequences have length 2 — the code
never checks the agreement. -/
theorem read_length_mismatch_cex :
    (read inputLengthMismatch).map (fun r =>
        (r.alphabet,
          r.motifs.map (fun m => (m.length, m.counts.map (fun p => (p.1, p.2.length)))))) =
      Except.ok (Alphabet.unambiguous_dna,
        [(5, [("A", 2), ("C", 2), ("G", 2), ("T", 2)])]) := rfl

/-- C5 (amended): for nucleotide input of well-formed blocks, every motif's
counts mapping has exactly the keys A, C, G, T and all four sequences have
length equal to the number of consumed matrix rows; this equals the
motif's `length` attribute (the `w=` value) exactly when each block has
`w` rows — an agreement the code itself never verifies. -/
theorem read_counts_keys_and_lengths (blocks : List BlockShape)
    (hg : ∀ b ∈ blocks, goodBlockB b = true)
    (hw : ∀ b ∈ blocks, (statsGet b.statsLine).1 = (b.rows.length : ℤ)) :
    ∃ r, read (header4 ++ blocksJoin blocks) = Except.ok r ∧
      r.alphabet = Alphabet.unambiguous_dna ∧
      ∀ m ∈ r.motifs, m.counts.map Prod.fst = ["A", "C", "G", "T"] ∧
        ∀ p ∈ m.counts, (p.2.length : ℤ) = m.length := by
  rw [read_header4, loopMotifsF_blocks _ _ blocks hg _ (le_refl _)]
  refine ⟨mkRec (blocks.map (blockMotif Alphabet.unambiguous_dna bg4)), rfl, rfl, ?_⟩
  intro m hm
  simp only [mkRec, List.mem_map] at hm
  obtain ⟨b, hb, rfl⟩ := hm
  refine ⟨rfl, ?_⟩
  intro p hp
  have hwb := hw b hb
  simp only [blockMotif, countsDict, colVals, List.mem_cons, List.mem_singleton,
    List.not_mem_nil, or_false] at hp
  rcases hp with h | h | h | h <;>
    (subst h; simp [blockMotif, List.length_map, colVals]; omega)

/-- Witness for `read_counts_keys_and_lengths` on one concrete block whose
row count matches its `w=` value. -/
theorem read_counts_keys_and_lengths_witness :
    ∃ r, read (header4 ++ blocksJoin [blockA]) = Except.ok r ∧
      r.alphabet = Alphabet.unambiguous_dna ∧
      ∀ m ∈ r.motifs, m.counts.map Prod.fst = ["A", "C", "G", "T"] ∧
        ∀ p ∈ m.counts, (p.2.length : ℤ) = m.length :=
  read_counts_keys_and_lengths [blockA] (by decide) (by decide)

/-- C6 (counterexample): on the alphabet line
`"ALPHABET= ALPHABET= ACGT"` the prefix-stripped remainder is
`"ALPHABET= ACGT" ≠ "ACGT"`, so the claim predicts the protein alphabet,
but the code's replace-ALL-occurrences yields `"ACGT"` and the record gets
the DNA alphabet. -/
theorem readAlphabet_replace_all_cex :
    (read inputNestedAlphabet).map (fun r => r.alphabet) =
        Except.ok Alphabet.unambiguous_dna ∧
    specAlphabetOf "ALPHABET= ALPHABET= ACGT" = Alphabet.protein := ⟨rfl, rfl⟩

/-- C6 (amended): the decision is a closed binary choice, but on the
whitespace-trimmed line with ALL occurrences of the substring
`"ALPHABET= "` removed (Python `str.replace`), not with only the prefix
stripped: remainder `"ACGT"` gives the DNA alphabet, anything else the
protein alphabet. -/
theorem readAlphabet_decision (pre : List String) (line : String) (post : List String)
    (hpre : ∀ l ∈ pre, pyStartsWith l "ALPHABET" = false)
    (hline : pyStartsWith line "ALPHABET= " = true) :
    readAlphabet (pre ++ line :: post) =
      Except.ok ((if pyReplace (pyStrip line) "ALPHABET= " "" = "ACGT" then
          Alphabet.unambiguous_dna
        else Alphabet.protein), post) := by
  have hA : pyStartsWith line "ALPHABET" = true := by
    rw [pyStartsWith] at hline ⊢
    rw [ List.isPrefixOf_iff_prefix] at hline ⊢
    exact List.IsPrefix.trans (by decide) hline
  rw [readAlphabet,
    dropUntil_append (fun l => pyStartsWith l "ALPHABET") pre line post hpre hA]
  dsimp only
  rw [if_pos hline]

/-- Witness for `readAlphabet_decision`: scan skips a non-matching line and
the `ACGT` branch fires. -/
theorem readAlphabet_decision_witness :
    (∀ l ∈ ["junk"], pyStartsWith l "ALPHABET" = false) ∧
    pyStartsWith "ALPHABET= ACGT" "ALPHABET= " = true ∧
    readAlphabet (["junk"] ++ "ALPHABET= ACGT" :: ["rest"]) =
      Except.ok (Alphabet.unambiguous_dna, ["rest"]) := by
  refine ⟨by decide, by decide, ?_⟩
  rw [readAlphabet_decision ["junk"] "ALPHABET= ACGT" ["rest"] (by decide) (by decide)]
  rfl

/-- C7: the background scan whitespace-splits the line after the marker and
reads tokens 1, 3, 5, 7 as the A, C, G, T frequencies, producing exactly
that four-entry mapping. -/
theorem readBackground_positions (pre : List String) (bline dline : String)
    (rest : List String)
    (hpre : ∀ l ∈ pre, pyStartsWith l "Background letter frequencies" = false)
    (hb : pyStartsWith bline "Background letter frequencies" = true)
    (t1 t3 t5 t7 : String) (qa qc qg qt : ℚ)
    (h1 : (pySplit (pyStrip dline)).get? 1 = some t1) (p1 : parseFloat t1 = some qa)
    (h3 : (pySplit (pyStrip dline)).get? 3 = some t3) (p3 : parseFloat t3 = some qc)
    (h5 : (pySplit (pyStrip dline)).get? 5 = some t5) (p5 : parseFloat t5 = some qg)
    (h7 : (pySplit (pyStrip dline)).get? 7 = some t7) (p7 : parseFloat t7 = some qt) :
    readBackground (pre ++ bline :: dline :: rest) =
      Except.ok ([("A", qa), ("C", qc), ("G", qg), ("T", qt)], rest) := by
  rw [readBackground,
    dropUntil_append (fun l => pyStartsWith l "Background letter frequencies")
      pre bline (dline :: rest) hpre hb]
  dsimp only
  simp [pyIndex, ← List.get?_eq_getElem?, h1, h3, h5, h7, pyFloatE, p1, p3, p5, p7,
    Except.instMonad, Except.bind, Except.pure]

/-- Witness for `readBackground_positions` on the claim's concrete line:
the mapping is exactly A ↦ 3/10, C ↦ 1/5, G ↦ 1/5, T ↦ 3/10. -/
theorem readBackground_positions_witness :
    pyStartsWith "Background letter frequencies" "Background letter frequencies" = true ∧
    parseFloat "0.30" = some (mkRat 3 10) ∧ parseFloat "0.20" = some (mkRat 1 5) ∧
    readBackground ["Background letter frequencies", "A 0.30 C 0.20 G 0.20 T 0.30"] =
      Except.ok ([("A", mkRat 3 10), ("C", mkRat 1 5), ("G", mkRat 1 5),
        ("T", mkRat 3 10)], []) := by
  refine ⟨by decide, by decide, by decide, ?_⟩
  exact readBackground_positions [] "Background letter frequencies"
    "A 0.30 C 0.20 G 0.20 T 0.30" [] (by decide) (by decide)
    "0.30" "0.20" "0.20" "0.30" (mkRat 3 10) (mkRat 1 5) (mkRat 1 5) (mkRat 3 10)
    (by decide) (by decide) (by decide) (by decide) (by decide) (by decide)
    (by decide) (by decide)

/-- C8: a 4-token matrix row prepends, to each of the four per-symbol
sequences, the token's float value multiplied by 1,000,000 and truncated
toward zero. -/
theorem readLpm_row_conversion (row : String) (rest : List String)
    (t0 t1 t2 t3 : String) (q0 q1 q2 q3 : ℚ)
    (hsplit : pySplit row = [t0, t1, t2, t3])
    (hp0 : parseFloat t0 = some q0) (hp1 : parseFloat t1 = some q1)
    (hp2 : parseFloat t2 = some q2) (hp3 : parseFloat t3 = some q3) :
    readLpm (row :: rest) = (readLpm rest).map (fun p =>
      ((truncMul1e6 q0 :: p.1.1, truncMul1e6 q1 :: p.1.2.1,
        truncMul1e6 q2 :: p.1.2.2.1, truncMul1e6 q3 :: p.1.2.2.2), p.2)) := by
  rw [readLpm]
  simp only [hsplit]
  rw [if_pos (by rfl)]
  simp only [List.getD]
  simp only [pyFloatE, hp0, hp1, hp2, hp3]
  cases hr : readLpm rest with
  | error e => simp [hr, hp0, hp1, hp2, hp3, Except.instMonad, Except.bind, Except.map]
  | ok p => simp [hr, hp0, hp1, hp2, hp3, Except.instMonad, Except.bind, Except.pure, Except.map]

/-- Witness for `readLpm_row_conversion` on the claim's row
`"0.5 0.25 0.25 0.0"`: the column counts are A ↦ 500000, C ↦ 250000,
G ↦ 250000, T ↦ 0. -/
theorem readLpm_row_conversion_witness :
    pySplit "0.5 0.25 0.25 0.0" = ["0.5", "0.25", "0.25", "0.0"] ∧
    readLpm ["0.5 0.25 0.25 0.0"] =
      Except.ok (([500000], [250000], [250000], [0]), []) ∧
    countsDict ([500000], [250000], [250000], [0]) =
      [("A", [500000]), ("C", [250000]), ("G", [250000]), ("T", [0])] := by
  refine ⟨by decide, ?_, by decide⟩
  rw [readLpm_row_conversion "0.5 0.25 0.25 0.0" [] "0.5" "0.25" "0.25" "0.0"
    (mkRat 1 2) (mkRat 1 4) (mkRat 1 4) (mkRat 0 1)
    (by decide) (by decide) (by decide) (by decide) (by decide)]
  rfl

theorem find?_first_match (p : Motif → Bool) (pre : List Motif) (m : Motif)
    (post : List Motif) (hpre : ∀ x ∈ pre, p x = false) (hm : p m = true) :
    (pre ++ m :: post).find? p = some m := by
  induction pre with
  | nil => simp [List.find?, hm]
  | cons x xs ih =>
    rw [List.cons_append,
      List.find?_cons_of_neg _ (by simp [hpre x (List.mem_cons_self x xs)])]
    exact ih fun y hy => hpre y (List.mem_cons_of_mem _ hy)

/-- C9: `Record.__getitem__` semantics — a textual key returns the FIRST
motif whose name equals the key exactly and absence is `none`, not an
error; an integer key follows standard sequence indexing with negative
indices counting from the end, and out-of-range raises `IndexError`. -/
theorem record_getitem_semantics (r : Record) (key : String) (i : ℤ) :
    (∀ pre m post, r.motifs = pre ++ m :: post → (∀ m2 ∈ pre, m2.name ≠ key) →
      m.name = key → r.getitem (Sum.inl key) = Except.ok (some m)) ∧
    ((∀ m2 ∈ r.motifs, m2.name ≠ key) → r.getitem (Sum.inl key) = Except.ok none) ∧
    (∀ m, 0 ≤ i → r.motifs.get? i.toNat = some m →
      r.getitem (Sum.inr i) = Except.ok (some m)) ∧
    (∀ m, i < 0 → -(r.motifs.length : ℤ) ≤ i →
      r.motifs.get? (i + r.motifs.length).toNat = some m →
      r.getitem (Sum.inr i) = Except.ok (some m)) ∧
    (((r.motifs.length : ℤ) ≤ i ∨ i < -(r.motifs.length : ℤ)) →
      r.getitem (Sum.inr i) = Except.error PyError.indexError) := by
  refine ⟨?_, ?_, ?_, ?_, ?_⟩
  · intro pre m post hsplit hpre hm
    have hfind : r.motifs.find? (fun m2 => m2.name = key) = some m := by
      rw [hsplit]
      exact find?_first_match _ pre m post (fun x hx => by simp [hpre x hx]) (by simp [hm])
    simp [Record.getitem, Record.findByName, hfind]
  · intro habs
    have hfind : r.motifs.find? (fun m2 => m2.name = key) = none := by
      rw [List.find?_eq_none]
      intro x hx
      simp [habs x hx]
    simp [Record.getitem, Record.findByName, hfind]
  · intro m hi hget
    simp only [Record.getitem, listGetItem]
    rw [if_neg (by omega : ¬ i < 0), if_pos hi, hget]
    rfl
  · intro m hi hlow hget
    simp only [Record.getitem, listGetItem]
    rw [if_pos hi, if_pos (by omega : (0 : ℤ) ≤ i + r.motifs.length), hget]
    rfl
  · intro hout
    simp only [Record.getitem, listGetItem]
    rcases hout with hge | hlt
    · rw [if_neg (by omega : ¬ i < 0), if_pos (by omega : (0 : ℤ) ≤ i),
        List.get?_eq_none.mpr (by omega : r.motifs.length ≤ i.toNat)]
      rfl
    · rw [if_pos (by omega : i < 0),
        if_neg (by omega : ¬ (0 : ℤ) ≤ i + r.motifs.length)]
      rfl

/-- Witness for `record_getitem_semantics` on a concrete 2-motif record:
name hit, name miss, positive index, negative index, and out of range. -/
theorem record_getitem_semantics_witness :
    recTwo.getitem (Sum.inl "LEXA") = Except.ok (some motifLEXA) ∧
    recTwo.getitem (Sum.inl "GONE") = Except.ok none ∧
    recTwo.getitem (Sum.inr 1) = Except.ok (some motifCRP) ∧
    recTwo.getitem (Sum.inr (-1)) = Except.ok (some motifCRP) ∧
    recTwo.getitem (Sum.inr 2) = Except.error PyError.indexError := by
  refine ⟨?_, ?_, ?_, ?_, ?_⟩
  · exact (record_getitem_semantics recTwo "LEXA" 0).1 [] motifLEXA [motifCRP]
      rfl (by simp) rfl
  · exact (record_getitem_semantics recTwo "GONE" 0).2.1 (by decide)
  · exact (record_getitem_semantics recTwo "GONE" 1).2.2.1 motifCRP (by decide) rfl
  · exact (record_getitem_semantics recTwo "GONE" (-1)).2.2.2.1 motifCRP
      (by decide) (by decide) rfl
  · exact (record_getitem_semantics recTwo "GONE" 2).2.2.2.2 (Or.inl (by decide))

/-- The key invariant behind C10 at the level of the motif-block loop:
whatever the input, every motif a successful loop returns carries a counts
dict keyed exactly A, C, G, T. -/
theorem loopMotifsF_counts_keys (al : Alphabet) (bg : List (String × ℚ))
    (fuel : Nat) (handle : List String) (ms : List Motif)
    (h : loopMotifsF al bg fuel handle = Except.ok ms) :
    ∀ m ∈ ms, m.counts.map Prod.fst = ["A", "C", "G", "T"] := by
  induction fuel generalizing handle ms with
  | zero =>
    rw [loopMotifsF] at h
    cases hd : dropUntil (fun l => pyStartsWith l "MOTIF") handle with
    | none =>
      rw [hd] at h
      cases h
      simp
    | some p =>
      rw [hd] at h
      rcases p with ⟨line, rest1⟩
      simp at h
  | succ f ih =>
    rw [loopMotifsF] at h
    cases hd : dropUntil (fun l => pyStartsWith l "MOTIF") handle with
    | none =>
      rw [hd] at h
      cases h
      simp
    | some p =>
      rcases p with ⟨line, rest1⟩
      rw [hd] at h
      dsimp only at h
      cases hn : (pySplit line).get? 1 with
      | none => rw [hn] at h; simp at h
      | some name =>
        rw [hn] at h
        dsimp only at h
        cases hs : readMotifStatistics line rest1 with
        | error e => rw [hs] at h; simp at h
        | ok pr =>
          rcases pr with ⟨stats, rest2⟩
          rw [hs] at h
          dsimp only at h
          cases hl : readLpm rest2 with
          | error e => rw [hl] at h; simp at h
          | ok pc =>
            rcases pc with ⟨cols, rest3⟩
            rw [hl] at h
            dsimp only at h
            cases hrec : loopMotifsF al bg f rest3 with
            | error e => rw [hrec] at h; simp at h
            | ok ms2 =>
              rw [hrec] at h
              dsimp only at h
              cases h
              intro m hm
              rcases List.mem_cons.mp hm with rfl | hm2
              · rfl
              · exact ih rest3 ms2 hrec m hm2

/-- C10: for EVERY successfully parsed input — whatever the declared
alphabet, protein included — every motif's counts mapping has exactly the
four keys A, C, G, T, because `__read_lpm` unconditionally builds four
per-symbol sequences under those keys. -/
theorem read_counts_keys_universal (handle : List String) (r : Record)
    (h : read handle = Except.ok r) :
    ∀ m ∈ r.motifs, m.counts.map Prod.fst = ["A", "C", "G", "T"] := by
  rw [read] at h
  cases hv : readVersion handle with
  | error e => rw [hv] at h; simp [Except.instMonad, Except.bind] at h
  | ok pv =>
    rcases pv with ⟨version, r1⟩
    rw [hv] at h
    simp only [Except.instMonad, Except.bind] at h
    cases ha : readAlphabet r1 with
    | error e => rw [ha] at h; simp at h
    | ok pa =>
      rcases pa with ⟨al, r2⟩
      rw [ha] at h
      dsimp only at h
      cases hb : readBackground r2 with
      | error e => rw [hb] at h; simp at h
      | ok pb =>
        rcases pb with ⟨bg, r3⟩
        rw [hb] at h
        dsimp only at h
        cases hl : loopMotifsF al bg r3.length r3 with
        | error e => rw [hl] at h; simp at h
        | ok ms =>
          rw [hl] at h
          simp only [Except.pure] at h
          cases h
          exact loopMotifsF_counts_keys al bg r3.length r3 ms hl

/-- Witness for `read_counts_keys_universal` on a protein-alphabet input
with one motif. -/
theorem read_counts_keys_universal_witness :
    ∃ r, read inputProtein = Except.ok r ∧ r.alphabet = Alphabet.protein ∧
      ∀ m ∈ r.motifs, m.counts.map Prod.fst = ["A", "C", "G", "T"] := by
  cases hr : read inputProtein with
  | error e =>
    have hok : isOkE (read inputProtein) = true := rfl
    rw [hr] at hok
    simp [isOkE] at hok
  | ok r =>
    refine ⟨r, rfl, ?_, read_counts_keys_universal inputProtein r hr⟩
    have : (read inputProtein).map (fun x => x.alphabet) = Except.ok Alphabet.protein := rfl
    rw [hr] at this
    simpa [Except.map] using this

end MinimalMeme
